import Mathlib

/-!
Verification of the event-aggregation and delivery engine of the Telebot
repository (source file `Telebot_Original_V1.py`).  The Python program is
shallowly embedded below: its global mutable state (`PROCESSED_UPDATES`,
`per_chat_buffers`, the asyncio timer queue) becomes an explicit `BotState`
record, the handlers (`handle_message`, `flush_chat_buffer`,
`send_email_smtp`, `cleanup_processed`) become pure state-transition
functions, and the asyncio event loop becomes an explicit list of timed
steps.  External effects (SMTP attempts succeeding or failing, the Telegram
confirmation send, the configured environment variables) are captured by an
`EmailEnv` record of oracles, so every definition is executable.
-/

set_option linter.unusedVariables false

namespace Telebot

/-- Python string truthiness: `a or b` falls through both on `None` and on
the empty string, as in `text or caption or "(tidak ada teks)"`. -/
def pyOrStr : Option String → String → String
  | some s, d => if s = "" then d else s
  | none, d => d

/-- One downloadable media object (photo / video / audio).  `downloadOk`
records whether the `get_file` + `download_to_drive` pair for this object
would succeed or raise. -/
structure MediaFile where
  fileId : String
  downloadOk : Bool
deriving DecidableEq

/-- A Telegram document; its stored path uses `file_name`. -/
structure DocFile where
  fileName : String
  downloadOk : Bool
deriving DecidableEq

structure TgUser where
  username : Option String
  firstName : Option String
deriving DecidableEq

/-- The parts of `update.message` read by `handle_message`.  `photo` is a
list of sizes of which the code uses the last (`photo[-1]`). -/
structure TgMessage where
  text : Option String
  caption : Option String
  photo : List MediaFile
  document : Option DocFile
  video : Option MediaFile
  audio : Option MediaFile
deriving DecidableEq

structure TgUpdate where
  updateId : Nat
  chatId : Int
  fromUser : TgUser
  message : TgMessage
deriving DecidableEq

/-- `PROCESSED_TTL = 120  # seconds`. -/
def PROCESSED_TTL : Nat := 120

/-- The debounce delay of `loop.call_later(60, ...)` in `handle_message`. -/
def DEBOUNCE_INTERVAL : Nat := 60

/-- `max_retries=3`, the default of `send_email_smtp`. -/
def MAX_RETRIES : Nat := 3

/-- One entry of `per_chat_buffers[chat_id]`. -/
structure ChatBuffer where
  texts : List String
  attachments : List String
  username : String
  firstName : String
  timerHandle : Option Nat
deriving DecidableEq

/-- A `loop.call_later` handle: fires `flush_chat_buffer(chatId)` at
`fireAt` unless `cancelled`. -/
structure Timer where
  chatId : Int
  fireAt : Nat
  cancelled : Bool
deriving DecidableEq

/-- The `status` column written to `email_log.csv`: `"Terkirim"` on
success, `"Gagal: ..."` on final failure. -/
inductive SmtpStatus where
  | terkirim
  | gagal
deriving DecidableEq

/-- One row of `email_log.csv`.  The wall-clock `timestamp` column is
side data not modelled; the `to` column is `", ".join(EMAIL_RECEIVERS)`. -/
structure EmailLogEntry where
  recipients : String
  subject : String
  status : SmtpStatus
deriving DecidableEq

/-- The observable outcome of one `send_email_smtp` call: its boolean
return value, how many loop iterations ran, the `time.sleep(2 ** attempt)`
durations performed, and the `email_log.csv` rows appended.
`fallbackAttempts` counts calls to a secondary (HTTP API) transport; the
source contains no such call — `SENDGRID_API_KEY` is read at module load
and never used — so no code path makes it nonzero. -/
structure SmtpResult where
  success : Bool
  attemptsMade : Nat
  sleeps : List Nat
  logEntries : List EmailLogEntry
  fallbackAttempts : Nat
deriving DecidableEq

/-- The environment of one run: whether `EMAIL_SENDER`/`EMAIL_PASSWORD`
are set, the (unused) `SENDGRID_API_KEY`, `EMAIL_RECEIVERS`, an oracle
giving the outcome of the k-th SMTP attempt of a send call, and whether
the Telegram confirmation send succeeds. -/
structure EmailEnv where
  credsSet : Bool
  sendgridKey : Option String
  receivers : List String
  smtpOk : List Bool
  telegramOk : Bool
deriving DecidableEq

/-- Whether the `attempt`-th (1-based) SMTP try of a send call succeeds. -/
def attemptOk (env : EmailEnv) (attempt : Nat) : Bool :=
  env.smtpOk.getD (attempt - 1) false

/-- `", ".join(EMAIL_RECEIVERS)`. -/
def recipientsStr (env : EmailEnv) : String :=
  String.intercalate ", " env.receivers

/-- The retry loop of `send_email_smtp`, lines 75-114: iterate `attempt`
from 1; on success append a `Terkirim` row and return `True`; on an
exception sleep `2 ** attempt` if more attempts remain, otherwise append a
`Gagal` row and return `False`.  `fuel` bounds the recursion and equals
the number of remaining iterations. -/
def smtpGo (env : EmailEnv) (subject : String) (maxRetries : Nat) : Nat → Nat → SmtpResult
  | _, 0 => ⟨false, 0, [], [], 0⟩
  | attempt, fuel + 1 =>
    if attemptOk env attempt then
      ⟨true, 1, [], [⟨recipientsStr env, subject, SmtpStatus.terkirim⟩], 0⟩
    else if attempt < maxRetries then
      let r := smtpGo env subject maxRetries (attempt + 1) fuel
      ⟨r.success, r.attemptsMade + 1, 2 ^ attempt :: r.sleeps, r.logEntries, 0⟩
    else
      ⟨false, 1, [], [⟨recipientsStr env, subject, SmtpStatus.gagal⟩], 0⟩

/-- `send_email_smtp(subject, body, attachments, max_retries)`: returns
`False` immediately (no attempts, no log rows) when the credentials are
unset, otherwise runs the retry loop starting at attempt 1. -/
def sendEmailSmtp (env : EmailEnv) (subject body : String) (attachments : List String)
    (maxRetries : Nat) : SmtpResult :=
  if env.credsSet then smtpGo env subject maxRetries 1 maxRetries
  else ⟨false, 0, [], [], 0⟩

/-- What `flush_chat_buffer` produces when it consumes a buffer: the
composed email together with its delivery outcome. -/
structure DeliveryBatch where
  chatId : Int
  subject : String
  body : String
  texts : List String
  attachments : List String
  outcome : SmtpResult
deriving DecidableEq

/-- One row of `message_log.csv` (timestamp column again unmodelled). -/
structure MsgLogEntry where
  chatId : Int
  username : String
  textsJoined : String
  attachmentsJoined : String
deriving DecidableEq

/-- The program's mutable state plus its accumulated observable effects.
`processed` is `PROCESSED_UPDATES` (update_id → first-seen time),
`buffers` is `per_chat_buffers`, `timers` holds every `call_later` handle
ever created (keyed by a fresh id), `batches` records each flush that
reached the send step, `notifications` the Telegram confirmations
(chat_id, success), `acks` the per-message receipt replies, and `deleted`
every file the program removes from disk — the source deletes no file, so
no operation appends to it. -/
structure BotState where
  processed : List (Nat × Nat)
  buffers : List (Int × ChatBuffer)
  timers : List (Nat × Timer)
  nextTimer : Nat
  batches : List DeliveryBatch
  notifications : List (Int × Bool)
  acks : List Int
  emailLog : List EmailLogEntry
  messageLog : List MsgLogEntry
  deleted : List String
deriving DecidableEq

def initState : BotState := ⟨[], [], [], 0, [], [], [], [], [], []⟩

/-- First-match lookup in an association list (Python dict read). -/
def lookupKey {α β : Type} [DecidableEq α] (k : α) : List (α × β) → Option β
  | [] => none
  | p :: rest => if p.1 = k then some p.2 else lookupKey k rest

/-- Python `del d[k]`. -/
def eraseKey {α β : Type} [DecidableEq α] (k : α) (l : List (α × β)) : List (α × β) :=
  l.filter (fun p => !(decide (p.1 = k)))

/-- In-place mutation of the value stored under `k`. -/
def updateKey {α β : Type} [DecidableEq α] (k : α) (f : β → β) (l : List (α × β)) :
    List (α × β) :=
  l.map (fun p => if p.1 = k then (p.1, f p.2) else p)

/-- `cleanup_processed`: drop every entry with `now - v > PROCESSED_TTL`. -/
def cleanupProcessed (now : Nat) (m : List (Nat × Nat)) : List (Nat × Nat) :=
  m.filter (fun kv => !(decide (PROCESSED_TTL < now - kv.2)))

/-- `update.message.text or update.message.caption or "(tidak ada teks)"`. -/
def extractText (m : TgMessage) : String :=
  pyOrStr m.text (pyOrStr m.caption "(tidak ada teks)")

/-- The four sequential download blocks of `handle_message` (photo,
document, video, audio), each contributing its target path under
`downloads/` paired with whether its download succeeds. -/
def attachmentPlan (m : TgMessage) : List (String × Bool) :=
  (match m.photo.getLast? with
    | some f => [("downloads/" ++ f.fileId ++ ".jpg", f.downloadOk)]
    | none => []) ++
  (match m.document with
    | some d => [("downloads/" ++ d.fileName, d.downloadOk)]
    | none => []) ++
  (match m.video with
    | some f => [("downloads/" ++ f.fileId ++ ".mp4", f.downloadOk)]
    | none => []) ++
  (match m.audio with
    | some f => [("downloads/" ++ f.fileId ++ ".ogg", f.downloadOk)]
    | none => [])

/-- Executing the download blocks under the single surrounding
`try/except`: each success appends its path; the first failure raises,
which skips every remaining block while keeping the paths already
appended. -/
def runSaves : List (String × Bool) → List String
  | [] => []
  | pb :: rest => if pb.2 then pb.1 :: runSaves rest else []

/-- The `attachments` list at the end of the try/except in
`handle_message`. -/
def saveAttachments (m : TgMessage) : List String :=
  runSaves (attachmentPlan m)

/-- The email subject of `flush_chat_buffer`; the `waktu_now()` wall-clock
fragment is side data not modelled. -/
def mkSubject (chatId : Int) : String :=
  "From Baba & Ibun (chat " ++ toString chatId ++ ")"

/-- The email body: sender line plus the texts joined by the separator,
with `["(kosong)"]` substituted for an empty list (Python `texts or
["(kosong)"]`). -/
def mkBody (buf : ChatBuffer) : String :=
  "Dari: " ++ buf.firstName ++ " (@" ++ buf.username ++ ")\n\nPesan gabungan:\n\n" ++
    String.intercalate "\n\n---\n\n" (if buf.texts.isEmpty then ["(kosong)"] else buf.texts)

/-- `flush_chat_buffer(chat_id)`: if no buffer exists return unchanged;
otherwise send the composed email, record the Telegram confirmation
(unless that send itself raises, which is caught), append the
`message_log.csv` row, and delete the buffer.  The buffer is deleted
whether or not the email succeeded. -/
def flushChat (env : EmailEnv) (s : BotState) (chatId : Int) : BotState :=
  match lookupKey chatId s.buffers with
  | none => s
  | some buf =>
    let res := sendEmailSmtp env (mkSubject chatId) (mkBody buf) buf.attachments MAX_RETRIES
    { s with
      batches := s.batches ++ [⟨chatId, mkSubject chatId, mkBody buf, buf.texts, buf.attachments, res⟩],
      notifications :=
        if env.telegramOk then s.notifications ++ [(chatId, res.success)] else s.notifications,
      emailLog := s.emailLog ++ res.logEntries,
      messageLog := s.messageLog ++
        [⟨chatId, buf.username, String.intercalate " || " buf.texts,
          String.intercalate ", " buf.attachments⟩],
      buffers := eraseKey chatId s.buffers }

/-- Mark the `call_later` handle `id` cancelled (`timer_handle.cancel()`). -/
def cancelTimer (id : Nat) (ts : List (Nat × Timer)) : List (Nat × Timer) :=
  updateKey id (fun tm => { tm with cancelled := true }) ts

/-- Arm a fresh debounce timer for `chatId` at `now + 60` and store its
handle in the chat's buffer (lines 268-271). -/
def armTimer (s : BotState) (now : Nat) (chatId : Int) : BotState :=
  { s with
    timers := s.timers ++ [(s.nextTimer, ⟨chatId, now + DEBOUNCE_INTERVAL, false⟩)],
    nextTimer := s.nextTimer + 1,
    buffers := updateKey chatId (fun b => { b with timerHandle := some s.nextTimer }) s.buffers }

/-- The buffer section of `handle_message` (lines 246-271): create the
buffer on first event or append to it, cancel the previously armed timer
if the buffer held one, then arm a new 60-unit timer. -/
def bufferAppend (s : BotState) (now : Nat) (u : TgUpdate) : BotState :=
  let text := extractText u.message
  let atts := saveAttachments u.message
  match lookupKey u.chatId s.buffers with
  | none =>
    armTimer
      { s with buffers := s.buffers ++
          [(u.chatId, ⟨[text], atts, pyOrStr u.fromUser.username "-",
            pyOrStr u.fromUser.firstName "-", none⟩)] }
      now u.chatId
  | some buf =>
    armTimer
      { s with
        buffers := updateKey u.chatId
          (fun b => { b with texts := b.texts ++ [text], attachments := b.attachments ++ atts })
          s.buffers,
        timers :=
          match buf.timerHandle with
          | some id => cancelTimer id s.timers
          | none => s.timers }
      now u.chatId

/-- `handle_message`: run `cleanup_processed`, drop the update if its id
is still recorded, otherwise record it, reply with the receipt ack, save
attachments and append to the chat's buffer, rearming the debounce
timer. -/
def handleMessage (env : EmailEnv) (s : BotState) (now : Nat) (u : TgUpdate) : BotState :=
  let proc := cleanupProcessed now s.processed
  if (lookupKey u.updateId proc).isSome then
    { s with processed := proc }
  else
    bufferAppend
      { s with processed := proc ++ [(u.updateId, now)], acks := s.acks ++ [u.chatId] }
      now u

/-- One scheduling action of the asyncio loop: either a webhook update is
handled at time `t`, or the loop reaches time `t` and runs every due
uncancelled `call_later` callback. -/
inductive Step where
  | msg (t : Nat) (u : TgUpdate)
  | fireDue (t : Nat)
deriving DecidableEq

def Step.isMsg : Step → Bool
  | .msg _ _ => true
  | .fireDue _ => false

/-- At loop time `t`, run every uncancelled timer whose deadline has
passed (each runs `flush_chat_buffer` for its chat) and retire those
handles. -/
def fireDueTimers (env : EmailEnv) (s : BotState) (t : Nat) : BotState :=
  let due := s.timers.filter (fun p => !p.2.cancelled && decide (p.2.fireAt ≤ t))
  let s1 := { s with timers := s.timers.filter (fun p => p.2.cancelled || decide (t < p.2.fireAt)) }
  due.foldl (fun st p => flushChat env st p.2.chatId) s1

def execStep (env : EmailEnv) (s : BotState) : Step → BotState
  | .msg t u => handleMessage env s t u
  | .fireDue t => fireDueTimers env s t

def runSteps (env : EmailEnv) (s : BotState) : List Step → BotState
  | [] => s
  | st :: rest => runSteps env (execStep env s st) rest

/-- The complete event-loop schedule for a list of inbound updates at
nondecreasing times: before each update the loop first runs whatever
timers became due, and after the last update the loop runs on until time
`T`, firing the remaining timers. -/
def schedule (events : List (Nat × TgUpdate)) (T : Nat) : List Step :=
  (events.map (fun e => [Step.fireDue e.1, Step.msg e.1 e.2])).flatten ++ [Step.fireDue T]

def runComplete (env : EmailEnv) (events : List (Nat × TgUpdate)) (T : Nat) : BotState :=
  runSteps env initState (schedule events T)

/-- Buffered texts of a conversation (empty when no buffer exists). -/
def bufTexts (s : BotState) (c : Int) : List String :=
  match lookupKey c s.buffers with
  | some b => b.texts
  | none => []

/-- Buffered attachment handles of a conversation. -/
def bufAtts (s : BotState) (c : Int) : List String :=
  match lookupKey c s.buffers with
  | some b => b.attachments
  | none => []

/-- Times of an event sequence are strictly increasing with consecutive
gaps below `DEBOUNCE_INTERVAL`, starting after `lastT`. -/
def timeOk (lastT : Nat) : List (Nat × TgUpdate) → Bool
  | [] => true
  | e :: rest => decide (lastT < e.1) && decide (e.1 < lastT + DEBOUNCE_INTERVAL) && timeOk e.1 rest

/-- Event ids are pairwise distinct and avoid the already-seen set. -/
def uidsOk (seen : List Nat) : List (Nat × TgUpdate) → Bool
  | [] => true
  | e :: rest => !(decide (e.2.updateId ∈ seen)) && uidsOk (seen ++ [e.2.updateId]) rest

/-- The arrival time of the last event (`t` when there is none). -/
def lastTimeAux (t : Nat) : List (Nat × TgUpdate) → Nat
  | [] => t
  | e :: rest => lastTimeAux e.1 rest

/-! ### Association-list lemmas -/

theorem lookupKey_eq_none {α β : Type} [DecidableEq α] {k : α} {l : List (α × β)}
    (h : ∀ p ∈ l, p.1 ≠ k) : lookupKey k l = none := by
  induction l with
  | nil => rfl
  | cons p rest ih =>
    rw [lookupKey, if_neg (h p (List.mem_cons_self _ _))]
    exact ih fun q hq => h q (List.mem_cons_of_mem _ hq)

theorem lookupKey_append_right {α β : Type} [DecidableEq α] {k : α} {l1 : List (α × β)}
    (l2 : List (α × β)) (h : lookupKey k l1 = none) :
    lookupKey k (l1 ++ l2) = lookupKey k l2 := by
  induction l1 with
  | nil => rfl
  | cons p rest ih =>
    rw [lookupKey] at h
    by_cases hp : p.1 = k
    · rw [if_pos hp] at h; exact absurd h (by simp)
    · rw [List.cons_append, lookupKey, if_neg hp]
      exact ih (by rwa [if_neg hp] at h)

theorem lookupKey_updateKey {α β : Type} [DecidableEq α] (k : α) (f : β → β)
    (l : List (α × β)) : lookupKey k (updateKey k f l) = (lookupKey k l).map f := by
  induction l with
  | nil => rfl
  | cons p rest ih =>
    by_cases hp : p.1 = k
    · simp [updateKey, lookupKey, hp]
    · have he : updateKey k f (p :: rest) = p :: updateKey k f rest := by
        simp [updateKey, hp]
      rw [he]
      simp only [lookupKey, hp, if_false]
      exact ih

theorem updateKey_eq_of_ne {α β : Type} [DecidableEq α] {k : α} {l : List (α × β)}
    (h : ∀ p ∈ l, p.1 ≠ k) (f : β → β) : updateKey k f l = l := by
  induction l with
  | nil => rfl
  | cons p rest ih =>
    simp only [updateKey, List.map_cons, if_neg (h p (List.mem_cons_self _ _))]
    rw [← updateKey, ih fun q hq => h q (List.mem_cons_of_mem _ hq)]

theorem lookupKey_eraseKey {α β : Type} [DecidableEq α] (k : α) (l : List (α × β)) :
    lookupKey k (eraseKey k l) = none := by
  apply lookupKey_eq_none
  intro p hp
  have := (List.mem_filter.mp hp).2
  simpa using this

theorem mem_cleanup {now : Nat} {m : List (Nat × Nat)} {kv : Nat × Nat}
    (h : kv ∈ cleanupProcessed now m) : kv ∈ m :=
  (List.mem_filter.mp h).1

theorem eq_none_of_lookupKey {α β : Type} [DecidableEq α] {k : α} {l : List (α × β)}
    (h : lookupKey k l = none) : ∀ p ∈ l, p.1 ≠ k := by
  induction l with
  | nil => intro p hp; exact absurd hp (List.not_mem_nil _)
  | cons q rest ih =>
    intro p hp
    rw [lookupKey] at h
    by_cases hq : q.1 = k
    · rw [if_pos hq] at h; exact absurd h (by simp)
    · rcases List.mem_cons.mp hp with h1 | h1
      · rw [h1]; exact hq
      · exact ih (by rwa [if_neg hq] at h) p h1

theorem lookupKey_cleanup_none {now : Nat} {m : List (Nat × Nat)} {k : Nat}
    (h : lookupKey k m = none) : lookupKey k (cleanupProcessed now m) = none := by
  apply lookupKey_eq_none
  intro p hp
  exact eq_none_of_lookupKey h p (mem_cleanup hp)

theorem lookupKey_cleanup_some {now : Nat} {m : List (Nat × Nat)} {k v : Nat}
    (h : lookupKey k m = some v) (hv : now - v ≤ PROCESSED_TTL) :
    lookupKey k (cleanupProcessed now m) = some v := by
  induction m with
  | nil => simp [lookupKey] at h
  | cons q rest ih =>
    rw [lookupKey] at h
    by_cases hq : q.1 = k
    · rw [if_pos hq] at h
      have hqv : q.2 = v := by simpa using h
      have hkeep : (!(decide (PROCESSED_TTL < now - q.2))) = true := by
        simp [hqv, Nat.not_lt.mpr hv]
      simp only [cleanupProcessed, List.filter_cons, hkeep, if_pos]
      rw [lookupKey, if_pos hq, hqv]
    · rw [if_neg hq] at h
      simp only [cleanupProcessed, List.filter_cons]
      by_cases hk : (!(decide (PROCESSED_TTL < now - q.2))) = true
      · rw [if_pos hk, lookupKey, if_neg hq]
        exact ih h
      · rw [if_neg hk]
        exact ih h

/-! ### Effect-preservation lemmas -/

theorem flushChat_deleted (env : EmailEnv) (s : BotState) (c : Int) :
    (flushChat env s c).deleted = s.deleted := by
  unfold flushChat
  cases lookupKey c s.buffers <;> rfl

theorem foldl_flush_deleted (env : EmailEnv) (l : List (Nat × Timer)) (s : BotState) :
    (l.foldl (fun st p => flushChat env st p.2.chatId) s).deleted = s.deleted := by
  induction l generalizing s with
  | nil => rfl
  | cons p rest ih => rw [List.foldl_cons, ih, flushChat_deleted]

theorem fireDueTimers_deleted (env : EmailEnv) (s : BotState) (t : Nat) :
    (fireDueTimers env s t).deleted = s.deleted := by
  unfold fireDueTimers
  rw [foldl_flush_deleted]

theorem armTimer_deleted (s : BotState) (now : Nat) (c : Int) :
    (armTimer s now c).deleted = s.deleted := rfl

theorem bufferAppend_deleted (s : BotState) (now : Nat) (u : TgUpdate) :
    (bufferAppend s now u).deleted = s.deleted := by
  unfold bufferAppend
  cases lookupKey u.chatId s.buffers <;> rfl

theorem handleMessage_deleted (env : EmailEnv) (s : BotState) (now : Nat) (u : TgUpdate) :
    (handleMessage env s now u).deleted = s.deleted := by
  unfold handleMessage
  by_cases h : (lookupKey u.updateId (cleanupProcessed now s.processed)).isSome
  · rw [if_pos h]
  · rw [if_neg h, bufferAppend_deleted]

theorem execStep_deleted (env : EmailEnv) (s : BotState) (st : Step) :
    (execStep env s st).deleted = s.deleted := by
  cases st with
  | msg t u => exact handleMessage_deleted env s t u
  | fireDue t => exact fireDueTimers_deleted env s t

theorem armTimer_batches (s : BotState) (now : Nat) (c : Int) :
    (armTimer s now c).batches = s.batches := rfl

theorem bufferAppend_batches (s : BotState) (now : Nat) (u : TgUpdate) :
    (bufferAppend s now u).batches = s.batches := by
  unfold bufferAppend
  cases lookupKey u.chatId s.buffers <;> rfl

theorem handleMessage_batches (env : EmailEnv) (s : BotState) (now : Nat) (u : TgUpdate) :
    (handleMessage env s now u).batches = s.batches := by
  unfold handleMessage
  by_cases h : (lookupKey u.updateId (cleanupProcessed now s.processed)).isSome
  · rw [if_pos h]
  · rw [if_neg h, bufferAppend_batches]

/-- `flush_chat_buffer` on a conversation with no buffer is a no-op
(lines 157-159 of the source). -/
theorem flushChat_no_buffer (env : EmailEnv) (s : BotState) (c : Int)
    (h : lookupKey c s.buffers = none) : flushChat env s c = s := by
  unfold flushChat
  rw [h]

theorem flushChat_erases (env : EmailEnv) (s : BotState) (c : Int) {buf : ChatBuffer}
    (h : lookupKey c s.buffers = some buf) :
    lookupKey c (flushChat env s c).buffers = none := by
  unfold flushChat
  rw [h]
  exact lookupKey_eraseKey c s.buffers

/-! ### Concrete inputs used by witnesses and counterexamples -/

/-- Credentials set, one working SMTP attempt, Telegram confirm works. -/
def envOk : EmailEnv := ⟨true, none, ["a@b"], [true], true⟩

/-- Credentials set, secondary transport configured, every SMTP attempt
fails. -/
def envAllFail : EmailEnv := ⟨true, some "SG.key", ["a@b"], [false, false, false], true⟩

/-- Credentials set, first attempt fails, second succeeds. -/
def envFailThenOk : EmailEnv := ⟨true, none, ["a@b"], [false, true], true⟩

/-- Credentials unset: `send_email_smtp` returns `False` at once. -/
def envNoCreds : EmailEnv := ⟨false, none, ["a@b"], [], true⟩

/-- Claim C2: `Flush(conversation_id)` is idempotent: when no buffer
exists for the conversation it returns immediately with the state
unchanged, and two flushes in immediate succession on the same
conversation produce at most one DeliveryBatch (the second call finds the
buffer already deleted and no-ops). -/
theorem c2_flush_idempotent (env : EmailEnv) (s : BotState) (c : Int) :
    (lookupKey c s.buffers = none → flushChat env s c = s) ∧
    (flushChat env (flushChat env s c) c).batches.length ≤ s.batches.length + 1 := by
  constructor
  · exact flushChat_no_buffer env s c
  · cases h : lookupKey c s.buffers with
    | none =>
      rw [flushChat_no_buffer env s c h, flushChat_no_buffer env s c h]
      exact Nat.le_succ _
    | some buf =>
      rw [flushChat_no_buffer env _ c (flushChat_erases env s c h)]
      unfold flushChat
      rw [h]
      simp

/-- Witness for C2 at the empty initial state: a flush of conversation 0
with no buffer is the identity, and a double flush adds at most one
batch. -/
theorem c2_witness :
    flushChat envOk initState 0 = initState ∧
    (flushChat envOk (flushChat envOk initState 0) 0).batches.length ≤
      initState.batches.length + 1 :=
  ⟨(c2_flush_idempotent envOk initState 0).1 rfl, (c2_flush_idempotent envOk initState 0).2⟩

/-- The retry loop never attempts a secondary transport: no constructor of
its result ever sets a nonzero `fallbackAttempts`, mirroring the absence
of any use of `SENDGRID_API_KEY` in the source. -/
theorem smtpGo_no_fallback (env : EmailEnv) (subject : String) (maxRetries attempt fuel : Nat) :
    (smtpGo env subject maxRetries attempt fuel).fallbackAttempts = 0 := by
  induction fuel generalizing attempt with
  | zero => rfl
  | succ n ih =>
    rw [smtpGo]
    by_cases h1 : attemptOk env attempt
    · rw [if_pos h1]
    · rw [if_neg h1]
      by_cases h2 : attempt < maxRetries
      · rw [if_pos h2]
      · rw [if_neg h2]

/-- Counterexample to claim C4: with the secondary transport configured
(`SENDGRID_API_KEY` set in `envAllFail`) and all three primary attempts
failing, the delivery simply returns `delivered = false`; the secondary
transport is attempted zero times, not once, because `send_email_smtp`
contains no fallback path. -/
theorem c4_counterexample :
    envAllFail.sendgridKey.isSome = true ∧
    (sendEmailSmtp envAllFail "s" "b" [] MAX_RETRIES).attemptsMade = 3 ∧
    (sendEmailSmtp envAllFail "s" "b" [] MAX_RETRIES).success = false ∧
    (sendEmailSmtp envAllFail "s" "b" [] MAX_RETRIES).fallbackAttempts = 0 :=
  ⟨rfl, rfl, rfl, rfl⟩

/-- Claim C4 amended: `SENDGRID_API_KEY` is read at startup but never
used; whatever the environment, the delivery makes zero secondary-transport
attempts, and when every primary attempt fails the outcome is
`delivered = false` even if a secondary transport is configured. -/
theorem c4_no_fallback (env : EmailEnv) (subject body : String) (atts : List String)
    (hfail : ∀ k, attemptOk env k = false) :
    (sendEmailSmtp env subject body atts MAX_RETRIES).fallbackAttempts = 0 ∧
    (sendEmailSmtp env subject body atts MAX_RETRIES).success = false := by
  by_cases hc : env.credsSet
  · constructor
    · unfold sendEmailSmtp
      rw [if_pos hc]
      exact smtpGo_no_fallback env subject MAX_RETRIES 1 MAX_RETRIES
    · simp [sendEmailSmtp, hc, MAX_RETRIES, smtpGo, hfail]
  · simp [sendEmailSmtp, hc]

/-- Witness for C4 at an environment whose SMTP oracle always fails. -/
theorem c4_witness :
    (∀ k, attemptOk ⟨true, some "SG", ["a@b"], [], true⟩ k = false) ∧
    (sendEmailSmtp ⟨true, some "SG", ["a@b"], [], true⟩ "s" "b" [] MAX_RETRIES).fallbackAttempts = 0 ∧
    (sendEmailSmtp ⟨true, some "SG", ["a@b"], [], true⟩ "s" "b" [] MAX_RETRIES).success = false := by
  have h : ∀ k, attemptOk ⟨true, some "SG", ["a@b"], [], true⟩ k = false := by
    intro k
    simp [attemptOk]
  exact ⟨h, c4_no_fallback _ "s" "b" [] h⟩

/-- The state consumed by the C5 counterexample: one buffered message with
one stored attachment for conversation 7. -/
def sC5 : BotState :=
  { initState with buffers := [(7, ⟨["hi"], ["downloads/a.jpg"], "u", "f", none⟩)] }

/-- Counterexample to claim C5: a flush whose outcome has
`delivered = true` and which references the stored attachment
`downloads/a.jpg`, after which the set of files the program has deleted is
still empty — the source performs no attachment cleanup. -/
theorem c5_counterexample :
    (flushChat envOk sC5 7).batches.map (fun b => b.outcome.success) = [true] ∧
    (flushChat envOk sC5 7).batches.map (fun b => b.attachments) = [["downloads/a.jpg"]] ∧
    (flushChat envOk sC5 7).deleted = [] :=
  ⟨rfl, rfl, rfl⟩

/-- Claim C5 amended: the Result Notifier deletes nothing: over any
sequence of handler and timer steps, the set of files deleted by the
program stays empty, whether or not deliveries succeed. -/
theorem c5_no_deletion (env : EmailEnv) (steps : List Step) :
    (runSteps env initState steps).deleted = [] := by
  have key : ∀ (l : List Step) (s : BotState), (runSteps env s l).deleted = s.deleted := by
    intro l
    induction l with
    | nil => intro s; rfl
    | cons st rest ih =>
      intro s
      rw [runSteps, ih, execStep_deleted]
  exact key steps initState

/-- Counterexample to claim C7: when all three attempts fail, the waits
actually performed are 2 then 4 — there are only two waits between three
attempts, so the claimed schedule 2, 4, 8 never occurs. -/
theorem c7_counterexample :
    (sendEmailSmtp envAllFail "s" "b" [] MAX_RETRIES).attemptsMade = 3 ∧
    (sendEmailSmtp envAllFail "s" "b" [] MAX_RETRIES).sleeps = [2, 4] ∧
    (sendEmailSmtp envAllFail "s" "b" [] MAX_RETRIES).sleeps ≠ [2, 4, 8] :=
  ⟨rfl, rfl, by decide⟩

/-- Claim C7 amended: the primary transport is attempted at most
MAX_RETRIES (3) times, and the wait after the k-th failed attempt (for
k below the attempt count) is 2^k: the realized waits are a prefix of
2, 4, with no wait after the final attempt. -/
theorem c7_backoff (env : EmailEnv) (subject body : String) (atts : List String) :
    (sendEmailSmtp env subject body atts MAX_RETRIES).attemptsMade ≤ MAX_RETRIES ∧
    (sendEmailSmtp env subject body atts MAX_RETRIES).sleeps =
      (List.range' 1 ((sendEmailSmtp env subject body atts MAX_RETRIES).attemptsMade - 1)).map
        (fun k => 2 ^ k) := by
  by_cases hc : env.credsSet
  · cases h1 : attemptOk env 1 <;> cases h2 : attemptOk env 2 <;> cases h3 : attemptOk env 3 <;>
      simp [sendEmailSmtp, hc, MAX_RETRIES, smtpGo, h1, h2, h3, List.range']
  · simp [sendEmailSmtp, hc]

/-- Counterexample to claim C9: a delivery whose first attempt fails and
whose second succeeds makes two attempts but appends exactly one entry to
the delivery log — intermediate attempts are not logged. -/
theorem c9_counterexample :
    (sendEmailSmtp envFailThenOk "s" "b" [] MAX_RETRIES).attemptsMade = 2 ∧
    (sendEmailSmtp envFailThenOk "s" "b" [] MAX_RETRIES).logEntries.length = 1 :=
  ⟨rfl, rfl⟩

/-- Claim C9 amended: each completed `send_email_smtp` call with
credentials configured appends exactly one `email_log.csv` row, carrying
the final status (`Terkirim` on success, `Gagal` on exhaustion);
intermediate failed attempts produce no row, and with credentials unset no
row is appended at all. -/
theorem c9_single_log_entry (env : EmailEnv) (subject body : String) (atts : List String) :
    (env.credsSet = true →
      (sendEmailSmtp env subject body atts MAX_RETRIES).logEntries.map (fun e => e.status) =
        [if (sendEmailSmtp env subject body atts MAX_RETRIES).success then SmtpStatus.terkirim
         else SmtpStatus.gagal]) ∧
    (env.credsSet = false →
      (sendEmailSmtp env subject body atts MAX_RETRIES).logEntries = []) := by
  constructor
  · intro hc
    cases h1 : attemptOk env 1 <;> cases h2 : attemptOk env 2 <;> cases h3 : attemptOk env 3 <;>
      simp [sendEmailSmtp, hc, MAX_RETRIES, smtpGo, h1, h2, h3]
  · intro hc
    simp [sendEmailSmtp, hc]

/-- Witness for C9: with credentials set and a fail-then-succeed oracle,
the single log row carries the success status. -/
theorem c9_witness :
    envFailThenOk.credsSet = true ∧
    (sendEmailSmtp envFailThenOk "s" "b" [] MAX_RETRIES).logEntries.map (fun e => e.status) =
      [if (sendEmailSmtp envFailThenOk "s" "b" [] MAX_RETRIES).success then SmtpStatus.terkirim
       else SmtpStatus.gagal] :=
  ⟨rfl, (c9_single_log_entry envFailThenOk "s" "b" []).1 rfl⟩

/-! ### Characterization of a fresh (non-duplicate) `handle_message` -/

theorem bufferAppend_processed (s : BotState) (now : Nat) (u : TgUpdate) :
    (bufferAppend s now u).processed = s.processed := by
  unfold bufferAppend
  cases lookupKey u.chatId s.buffers <;> rfl

/-- Appending an event to the conversation's buffer extends its texts by
the extracted text and its attachments by the saved handles, whether the
buffer is created here or already existed. -/
theorem bufferAppend_texts (s : BotState) (now : Nat) (u : TgUpdate) :
    bufTexts (bufferAppend s now u) u.chatId = bufTexts s u.chatId ++ [extractText u.message] ∧
    bufAtts (bufferAppend s now u) u.chatId = bufAtts s u.chatId ++ saveAttachments u.message := by
  cases hb : lookupKey u.chatId s.buffers with
  | none =>
    constructor
    · simp only [bufferAppend, hb, armTimer, bufTexts, bufAtts]
      rw [lookupKey_updateKey, lookupKey_append_right _ hb]
      simp [lookupKey]
    · simp only [bufferAppend, hb, armTimer, bufTexts, bufAtts]
      rw [lookupKey_updateKey, lookupKey_append_right _ hb]
      simp [lookupKey]
  | some buf =>
    constructor
    · simp only [bufferAppend, hb, armTimer, bufTexts, bufAtts]
      rw [lookupKey_updateKey, lookupKey_updateKey, hb]
      rfl
    · simp only [bufferAppend, hb, armTimer, bufTexts, bufAtts]
      rw [lookupKey_updateKey, lookupKey_updateKey, hb]
      rfl

/-- A non-duplicate update records its id with the current time and passes
through to the buffer. -/
theorem handleMessage_fresh (env : EmailEnv) (s : BotState) (t : Nat) (u : TgUpdate)
    (h : lookupKey u.updateId (cleanupProcessed t s.processed) = none) :
    (handleMessage env s t u).processed = cleanupProcessed t s.processed ++ [(u.updateId, t)] ∧
    bufTexts (handleMessage env s t u) u.chatId = bufTexts s u.chatId ++ [extractText u.message] ∧
    bufAtts (handleMessage env s t u) u.chatId = bufAtts s u.chatId ++ saveAttachments u.message := by
  have hcond : ¬((lookupKey u.updateId (cleanupProcessed t s.processed)).isSome = true) := by
    rw [h]
    simp
  unfold handleMessage
  rw [if_neg hcond]
  refine ⟨?_, ?_, ?_⟩
  · rw [bufferAppend_processed]
  · rw [(bufferAppend_texts _ t u).1]
    rfl
  · rw [(bufferAppend_texts _ t u).2]
    rfl

/-- The attachments that survive the try/except are exactly the paths of
the longest all-successful prefix of the download plan. -/
theorem runSaves_takeWhile (l : List (String × Bool)) :
    runSaves l = (l.takeWhile (fun pb => pb.2)).map (fun pb => pb.1) := by
  induction l with
  | nil => rfl
  | cons pb rest ih =>
    cases h : pb.2 with
    | true => simp [runSaves, List.takeWhile_cons, h, ih]
    | false => simp [runSaves, List.takeWhile_cons, h]

/-- The message of the C8 counterexample: a photo whose download raises
and a document whose download would succeed. -/
def mC8 : TgMessage := ⟨some "txt", none, [⟨"p1", false⟩], some ⟨"doc.pdf", true⟩, none, none⟩

/-- Counterexample to claim C8: the event carries a failing photo and a
saveable document; because one `try` wraps all four download blocks, the
photo's failure also skips the document, so the saved attachment list is
empty instead of containing only the document — more than the single
failing attachment is dropped. -/
theorem c8_counterexample :
    saveAttachments mC8 = [] ∧ saveAttachments mC8 ≠ ["downloads/doc.pdf"] := by
  have h : saveAttachments mC8 = [] := rfl
  refine ⟨h, ?_⟩
  rw [h]
  simp

/-- Claim C8 amended: when saving an event's attachments fails, the saved
handles are exactly the successful prefix of the per-event download plan —
the failing attachment and every attachment processed after it are
dropped, those saved before it are kept — and the event's text still
proceeds through the buffering pipeline. -/
theorem c8_attachment_failure (env : EmailEnv) (s : BotState) (t : Nat) (u : TgUpdate)
    (hfresh : lookupKey u.updateId (cleanupProcessed t s.processed) = none) :
    saveAttachments u.message =
      ((attachmentPlan u.message).takeWhile (fun pb => pb.2)).map (fun pb => pb.1) ∧
    bufTexts (handleMessage env s t u) u.chatId = bufTexts s u.chatId ++ [extractText u.message] ∧
    bufAtts (handleMessage env s t u) u.chatId = bufAtts s u.chatId ++ saveAttachments u.message :=
  ⟨runSaves_takeWhile _, (handleMessage_fresh env s t u hfresh).2.1,
   (handleMessage_fresh env s t u hfresh).2.2⟩

/-- The update carrying `mC8`, used by the C8 witness. -/
def uC8 : TgUpdate := ⟨3, 9, ⟨some "bob", some "Bob"⟩, mC8⟩

/-- Witness for C8: handling `uC8` from the initial state buffers its text
even though its attachment saves failed. -/
theorem c8_witness :
    lookupKey uC8.updateId (cleanupProcessed 0 initState.processed) = none ∧
    bufTexts (handleMessage envOk initState 0 uC8) uC8.chatId =
      bufTexts initState uC8.chatId ++ [extractText uC8.message] :=
  ⟨rfl, (c8_attachment_failure envOk initState 0 uC8 rfl).2.1⟩

/-- Claim C6: the first check of an event id records it (mapping it to the
current time) and lets the event through to the buffer; a check finding
the id recorded within `PROCESSED_TTL` classifies the event as a
duplicate, whose handling leaves the buffers and batches unchanged (the
only state change is the opportunistic purge of expired dedup records). -/
theorem c6_dedup (env : EmailEnv) (s : BotState) (t : Nat) (u : TgUpdate) :
    ((∃ t0, lookupKey u.updateId s.processed = some t0 ∧ t - t0 ≤ PROCESSED_TTL) →
      handleMessage env s t u = { s with processed := cleanupProcessed t s.processed } ∧
      (handleMessage env s t u).buffers = s.buffers ∧
      (handleMessage env s t u).batches = s.batches) ∧
    (lookupKey u.updateId s.processed = none →
      lookupKey u.updateId (handleMessage env s t u).processed = some t ∧
      bufTexts (handleMessage env s t u) u.chatId = bufTexts s u.chatId ++ [extractText u.message]) := by
  constructor
  · rintro ⟨t0, hl, htl⟩
    have hs := lookupKey_cleanup_some hl htl
    have hcond : (lookupKey u.updateId (cleanupProcessed t s.processed)).isSome = true := by
      rw [hs]
      rfl
    have he : handleMessage env s t u = { s with processed := cleanupProcessed t s.processed } := by
      unfold handleMessage
      rw [if_pos hcond]
    exact ⟨he, by rw [he], by rw [he]⟩
  · intro h
    have hn := @lookupKey_cleanup_none t s.processed u.updateId h
    refine ⟨?_, (handleMessage_fresh env s t u hn).2.1⟩
    rw [(handleMessage_fresh env s t u hn).1, lookupKey_append_right _ hn]
    simp [lookupKey]

/-- The duplicate update of the C6 witness. -/
def uC6 : TgUpdate := ⟨9, 3, ⟨none, none⟩, ⟨some "w", none, [], none, none, none⟩⟩

/-- A state in which update 9 was first seen at time 0. -/
def sC6 : BotState := { initState with processed := [(9, 0)] }

/-- Witness for C6: update 9 re-delivered at time 10 (within the TTL) is
dropped with no buffer change, while from a state that has never seen it
the same update is recorded and buffered. -/
theorem c6_witness :
    (∃ t0, lookupKey uC6.updateId sC6.processed = some t0 ∧ 10 - t0 ≤ PROCESSED_TTL) ∧
    handleMessage envOk sC6 10 uC6 = { sC6 with processed := cleanupProcessed 10 sC6.processed } ∧
    lookupKey uC6.updateId initState.processed = none ∧
    bufTexts (handleMessage envOk initState 10 uC6) uC6.chatId =
      bufTexts initState uC6.chatId ++ [extractText uC6.message] := by
  have hdup : ∃ t0, lookupKey uC6.updateId sC6.processed = some t0 ∧ 10 - t0 ≤ PROCESSED_TTL :=
    ⟨0, rfl, by decide⟩
  exact ⟨hdup, ((c6_dedup envOk sC6 10 uC6).1 hdup).1, rfl,
    ((c6_dedup envOk initState 10 uC6).2 rfl).2⟩

/-- Claim C10: when a flush's delivery fails, the buffer is still removed
from the mapping — the batch (with `delivered = false`) is recorded once,
nothing is re-buffered, and the conversation receives only the failure
notification. -/
theorem c10_failure_discards_buffer (env : EmailEnv) (s : BotState) (c : Int) (buf : ChatBuffer)
    (hbuf : lookupKey c s.buffers = some buf)
    (htg : env.telegramOk = true)
    (hfail : (sendEmailSmtp env (mkSubject c) (mkBody buf) buf.attachments MAX_RETRIES).success = false) :
    lookupKey c (flushChat env s c).buffers = none ∧
    (flushChat env s c).batches = s.batches ++
      [⟨c, mkSubject c, mkBody buf, buf.texts, buf.attachments,
        sendEmailSmtp env (mkSubject c) (mkBody buf) buf.attachments MAX_RETRIES⟩] ∧
    (flushChat env s c).notifications = s.notifications ++ [(c, false)] := by
  refine ⟨flushChat_erases env s c hbuf, ?_, ?_⟩
  · unfold flushChat
    rw [hbuf]
  · unfold flushChat
    rw [hbuf]
    simp [htg, hfail]

/-- The buffer consumed by the C10 witness. -/
def bufC10 : ChatBuffer := ⟨["x"], ["downloads/z.jpg"], "u", "f", none⟩

def sC10 : BotState := { initState with buffers := [(4, bufC10)] }

/-- Witness for C10: with credentials unset the delivery fails, yet the
buffer of conversation 4 is gone and the failure notification was sent. -/
theorem c10_witness :
    lookupKey 4 (flushChat envNoCreds sC10 4).buffers = none ∧
    (flushChat envNoCreds sC10 4).notifications = sC10.notifications ++ [(4, false)] :=
  ⟨(c10_failure_discards_buffer envNoCreds sC10 4 bufC10 rfl rfl rfl).1,
   (c10_failure_discards_buffer envNoCreds sC10 4 bufC10 rfl rfl rfl).2.2⟩

/-- The single-event trace of the C3 counterexample. -/
def uC3 : TgUpdate := ⟨1, 5, ⟨some "alice", some "Alice"⟩, ⟨some "hello", none, [], none, none, none⟩⟩

/-- Counterexample to claim C3: one event for conversation 5 arrives at
time 0 and its debounce timer never fires.  However much time then passes,
the state no longer changes (the program has no watchdog task), so no
DeliveryBatch exists — in particular none by time 0 + 70 + 30 — and the
buffer is still present, directly contradicting the claimed force-flush
within one watchdog period after the 70-unit ceiling. -/
theorem c3_counterexample :
    (runSteps envOk initState [Step.msg 0 uC3]).batches = [] ∧
    (lookupKey 5 (runSteps envOk initState [Step.msg 0 uC3]).buffers).isSome = true :=
  ⟨rfl, rfl⟩

/-- Claim C3 amended: the source has no watchdog; a buffer is flushed only
by a debounce-timer firing, so along any execution in which no timer fires
(every step is an inbound-event step) no DeliveryBatch is ever produced,
regardless of how old any buffer grows. -/
theorem c3_no_watchdog (env : EmailEnv) (steps : List Step)
    (h : ∀ st ∈ steps, st.isMsg = true) :
    (runSteps env initState steps).batches = [] := by
  have key : ∀ (l : List Step) (s : BotState), (∀ st ∈ l, st.isMsg = true) →
      (runSteps env s l).batches = s.batches := by
    intro l
    induction l with
    | nil => intro s _; rfl
    | cons st rest ih =>
      intro s hall
      rw [runSteps, ih _ fun x hx => hall x (List.mem_cons_of_mem _ hx)]
      cases st with
      | msg t u => exact handleMessage_batches env s t u
      | fireDue t =>
        have hm := hall _ (List.mem_cons_self _ _)
        simp [Step.isMsg] at hm
  exact key steps initState h

/-- Witness for C3's amended theorem on the one-event, no-firing trace. -/
theorem c3_witness :
    (∀ st ∈ [Step.msg 0 uC3], st.isMsg = true) ∧
    (runSteps envOk initState [Step.msg 0 uC3]).batches = [] := by
  have h : ∀ st ∈ [Step.msg 0 uC3], st.isMsg = true := by
    intro st hst
    rw [List.mem_singleton] at hst
    rw [hst]
    rfl
  exact ⟨h, c3_no_watchdog envOk [Step.msg 0 uC3] h⟩

/-! ### The debounce invariant for a single-conversation burst (claim C1) -/

theorem updateKey_append {α β : Type} [DecidableEq α] (k : α) (f : β → β)
    (l1 l2 : List (α × β)) :
    updateKey k f (l1 ++ l2) = updateKey k f l1 ++ updateKey k f l2 := by
  simp [updateKey]

theorem updateKey_updateKey {α β : Type} [DecidableEq α] (k : α) (f g : β → β)
    (l : List (α × β)) :
    updateKey k f (updateKey k g l) = updateKey k (fun b => f (g b)) l := by
  induction l with
  | nil => rfl
  | cons p rest ih =>
    by_cases hp : p.1 = k <;> simp [updateKey, hp] at ih ⊢ <;> exact ih

theorem runSteps_append (env : EmailEnv) (s : BotState) (l1 l2 : List Step) :
    runSteps env s (l1 ++ l2) = runSteps env (runSteps env s l1) l2 := by
  induction l1 generalizing s with
  | nil => rfl
  | cons st rest ih => rw [List.cons_append, runSteps, runSteps, ih]

theorem fireDueTimers_initState (env : EmailEnv) (t : Nat) :
    fireDueTimers env initState t = initState := rfl

theorem mem_flatten_map {α β : Type} (f : α → List β) (l : List α) (x : β) :
    x ∈ (l.map f).flatten ↔ ∃ a ∈ l, x ∈ f a := by
  rw [List.mem_flatten]
  constructor
  · rintro ⟨lb, hlb, hx⟩
    obtain ⟨a, ha, rfl⟩ := List.mem_map.mp hlb
    exact ⟨a, ha, hx⟩
  · rintro ⟨a, ha, hx⟩
    exact ⟨f a, List.mem_map_of_mem f ha, hx⟩

/-- `handle_message` on a non-duplicate update whose conversation already
holds a buffer with an armed timer: the id is recorded, the buffer is
extended, the old timer is cancelled and a fresh one armed. -/
theorem handleMessage_existing_buffer (env : EmailEnv) (s : BotState) (t : Nat) (u : TgUpdate)
    (buf : ChatBuffer) (tid : Nat)
    (hnone : lookupKey u.updateId (cleanupProcessed t s.processed) = none)
    (hb : lookupKey u.chatId s.buffers = some buf)
    (hh : buf.timerHandle = some tid) :
    handleMessage env s t u =
      { s with
        processed := cleanupProcessed t s.processed ++ [(u.updateId, t)],
        acks := s.acks ++ [u.chatId],
        buffers := updateKey u.chatId
          (fun b => ⟨b.texts ++ [extractText u.message],
            b.attachments ++ saveAttachments u.message, b.username, b.firstName,
            some s.nextTimer⟩) s.buffers,
        timers := cancelTimer tid s.timers ++
          [(s.nextTimer, ⟨u.chatId, t + DEBOUNCE_INTERVAL, false⟩)],
        nextTimer := s.nextTimer + 1 } := by
  have hcond : ¬((lookupKey u.updateId (cleanupProcessed t s.processed)).isSome = true) := by
    rw [hnone]
    simp
  simp only [handleMessage, bufferAppend, armTimer, if_neg hcond, hb, hh, updateKey_updateKey]

/-- The state invariant holding after each event of a same-conversation
burst: the only buffer is conversation `c`'s, holding the accumulated
texts and attachments and the handle of the one live timer; that timer is
the last armed one, due at `lastT + DEBOUNCE_INTERVAL`; every earlier
timer has been cancelled; no batch has been produced; and every recorded
dedup id comes from the burst. -/
def C1Inv (c : Int) (lastT : Nat) (texts atts : List String) (uids : List Nat)
    (s : BotState) : Prop :=
  ∃ un fn tid pre,
    s.buffers = [(c, ⟨texts, atts, un, fn, some tid⟩)] ∧
    s.timers = pre ++ [(tid, ⟨c, lastT + DEBOUNCE_INTERVAL, false⟩)] ∧
    (∀ p ∈ pre, p.2.cancelled = true) ∧
    (∀ p ∈ pre, p.1 < tid) ∧
    tid < s.nextTimer ∧
    s.batches = [] ∧
    (∀ kv ∈ s.processed, kv.1 ∈ uids)

/-- While the conversation's live timer is not yet due, a pass of the
event loop fires nothing and leaves the state unchanged. -/
theorem c1Inv_fireDue (env : EmailEnv) {c : Int} {lastT : Nat} {texts atts : List String}
    {uids : List Nat} {s : BotState} (hinv : C1Inv c lastT texts atts uids s)
    {t : Nat} (ht : t < lastT + DEBOUNCE_INTERVAL) :
    fireDueTimers env s t = s := by
  obtain ⟨un, fn, tid, pre, hbuf, htimers, hcan, hlt, hnt, hbat, hproc⟩ := hinv
  have hdue : s.timers.filter (fun p => !p.2.cancelled && decide (p.2.fireAt ≤ t)) = [] := by
    rw [htimers, List.filter_append]
    have h1 : pre.filter (fun p => !p.2.cancelled && decide (p.2.fireAt ≤ t)) = [] := by
      apply List.filter_eq_nil_iff.mpr
      intro p hp
      simp [hcan p hp]
    have h2 : ([((tid : Nat), (⟨c, lastT + DEBOUNCE_INTERVAL, false⟩ : Timer))]).filter
        (fun p => !p.2.cancelled && decide (p.2.fireAt ≤ t)) = [] := by
      simp [Nat.not_le.mpr ht]
    rw [h1, h2]
    rfl
  have hkeep : s.timers.filter (fun p => p.2.cancelled || decide (t < p.2.fireAt)) = s.timers := by
    rw [htimers]
    apply List.filter_eq_self.mpr
    intro p hp
    rcases List.mem_append.mp hp with h | h
    · simp [hcan p h]
    · rw [List.mem_singleton] at h
      subst h
      simp [ht]
  simp only [fireDueTimers]
  rw [hdue, hkeep]
  rfl

/-- A fresh same-conversation event arriving at any time `t` re-establishes
the invariant at `t`, extending the accumulated texts, attachments and
ids. -/
theorem c1Inv_step (env : EmailEnv) {c : Int} {lastT : Nat} {texts atts : List String}
    {uids : List Nat} {s : BotState} (hinv : C1Inv c lastT texts atts uids s)
    {t : Nat} {u : TgUpdate} (hchat : u.chatId = c) (hfresh : u.updateId ∉ uids) :
    C1Inv c t (texts ++ [extractText u.message]) (atts ++ saveAttachments u.message)
      (uids ++ [u.updateId]) (handleMessage env s t u) := by
  subst hchat
  obtain ⟨un, fn, tid, pre, hbuf, htimers, hcan, hlt, hnt, hbat, hproc⟩ := hinv
  have hnone : lookupKey u.updateId (cleanupProcessed t s.processed) = none := by
    apply lookupKey_eq_none
    intro kv hkv he
    exact hfresh (he ▸ hproc kv (mem_cleanup hkv))
  have hb : lookupKey u.chatId s.buffers = some ⟨texts, atts, un, fn, some tid⟩ := by
    rw [hbuf]
    simp [lookupKey]
  rw [handleMessage_existing_buffer env s t u _ tid hnone hb rfl]
  refine ⟨un, fn, s.nextTimer,
    pre ++ [(tid, ⟨u.chatId, lastT + DEBOUNCE_INTERVAL, true⟩)], ?_, ?_, ?_, ?_, ?_, ?_, ?_⟩
  · simp [hbuf, updateKey]
  · simp only [htimers, cancelTimer, updateKey_append]
    rw [updateKey_eq_of_ne (fun p hp => Nat.ne_of_lt (hlt p hp))
      (fun tm => { tm with cancelled := true })]
    simp [updateKey]
  · intro p hp
    rcases List.mem_append.mp hp with h | h
    · exact hcan p h
    · rw [List.mem_singleton] at h
      subst h
      rfl
  · intro p hp
    rcases List.mem_append.mp hp with h | h
    · exact Nat.lt_trans (hlt p h) hnt
    · rw [List.mem_singleton] at h
      subst h
      exact hnt
  · exact Nat.lt_succ_self _
  · exact hbat
  · intro kv hkv
    rcases List.mem_append.mp hkv with h | h
    · exact List.mem_append_left _ (hproc kv (mem_cleanup h))
    · rw [List.mem_singleton] at h
      subst h
      simp

/-- Handling the burst's first event from the initial state establishes
the invariant. -/
theorem c1Inv_init (env : EmailEnv) (t : Nat) (u : TgUpdate) (c : Int) (hchat : u.chatId = c) :
    C1Inv c t [extractText u.message] (saveAttachments u.message) [u.updateId]
      (handleMessage env initState t u) := by
  subst hchat
  refine ⟨pyOrStr u.fromUser.username "-", pyOrStr u.fromUser.firstName "-", 0, [],
    ?_, ?_, ?_, ?_, ?_, ?_, ?_⟩ <;>
    simp [handleMessage, bufferAppend, armTimer, cleanupProcessed, lookupKey, updateKey,
      initState]

/-- Running the rest of a burst after its first event preserves the
invariant, accumulating the events' texts, attachments and ids. -/
theorem c1_run (env : EmailEnv) (c : Int) (rest : List (Nat × TgUpdate)) :
    ∀ (lastT : Nat) (texts atts : List String) (uids : List Nat) (s : BotState),
      C1Inv c lastT texts atts uids s →
      (∀ e ∈ rest, e.2.chatId = c) →
      timeOk lastT rest = true →
      uidsOk uids rest = true →
      C1Inv c (lastTimeAux lastT rest)
        (texts ++ rest.map (fun e => extractText e.2.message))
        (atts ++ (rest.map (fun e => saveAttachments e.2.message)).flatten)
        (uids ++ rest.map (fun e => e.2.updateId))
        (runSteps env s ((rest.map (fun e => [Step.fireDue e.1, Step.msg e.1 e.2])).flatten)) := by
  induction rest with
  | nil =>
    intro lastT texts atts uids s hinv _ _ _
    simpa using hinv
  | cons e rest ih =>
    intro lastT texts atts uids s hinv hchat htime huid
    rw [timeOk] at htime
    simp only [Bool.and_eq_true, decide_eq_true_eq] at htime
    obtain ⟨⟨ht1, ht2⟩, ht3⟩ := htime
    rw [uidsOk] at huid
    simp only [Bool.and_eq_true, Bool.not_eq_true', decide_eq_false_iff_not] at huid
    obtain ⟨hu1, hu2⟩ := huid
    simp only [List.map_cons, List.flatten_cons]
    rw [runSteps_append]
    have hfire : runSteps env s [Step.fireDue e.1, Step.msg e.1 e.2] =
        handleMessage env s e.1 e.2 := by
      simp only [runSteps, execStep]
      rw [c1Inv_fireDue env hinv ht2]
    rw [hfire]
    have hstep := @c1Inv_step env c lastT texts atts uids s hinv e.1 e.2
      (hchat e (List.mem_cons_self _ _)) hu1
    have hrec := ih e.1 (texts ++ [extractText e.2.message])
      (atts ++ saveAttachments e.2.message) (uids ++ [e.2.updateId]) _ hstep
      (fun x hx => hchat x (List.mem_cons_of_mem _ hx)) ht3 hu2
    simpa [List.append_assoc] using hrec

/-- Once the conversation has been silent long enough for the live timer
to be due, the loop fires exactly that timer: the flush sends one batch
carrying the accumulated texts and attachments. -/
theorem c1Inv_final (env : EmailEnv) {c : Int} {lastT : Nat} {texts atts : List String}
    {uids : List Nat} {s : BotState} (hinv : C1Inv c lastT texts atts uids s)
    {T : Nat} (hT : lastT + DEBOUNCE_INTERVAL ≤ T) :
    (fireDueTimers env s T).batches.map (fun b => (b.chatId, b.texts, b.attachments)) =
      [(c, texts, atts)] := by
  obtain ⟨un, fn, tid, pre, hbuf, htimers, hcan, hlt, hnt, hbat, hproc⟩ := hinv
  have hdue : s.timers.filter (fun p => !p.2.cancelled && decide (p.2.fireAt ≤ T)) =
      [(tid, ⟨c, lastT + DEBOUNCE_INTERVAL, false⟩)] := by
    rw [htimers, List.filter_append]
    have h1 : pre.filter (fun p => !p.2.cancelled && decide (p.2.fireAt ≤ T)) = [] := by
      apply List.filter_eq_nil_iff.mpr
      intro p hp
      simp [hcan p hp]
    have h2 : ([((tid : Nat), (⟨c, lastT + DEBOUNCE_INTERVAL, false⟩ : Timer))]).filter
        (fun p => !p.2.cancelled && decide (p.2.fireAt ≤ T)) =
        [(tid, ⟨c, lastT + DEBOUNCE_INTERVAL, false⟩)] := by
      simp [hT]
    rw [h1, h2, List.nil_append]
  have hkeep : s.timers.filter (fun p => p.2.cancelled || decide (T < p.2.fireAt)) = pre := by
    rw [htimers, List.filter_append]
    have h1 : pre.filter (fun p => p.2.cancelled || decide (T < p.2.fireAt)) = pre := by
      apply List.filter_eq_self.mpr
      intro p hp
      simp [hcan p hp]
    have h2 : ([((tid : Nat), (⟨c, lastT + DEBOUNCE_INTERVAL, false⟩ : Timer))]).filter
        (fun p => p.2.cancelled || decide (T < p.2.fireAt)) = [] := by
      simp [Nat.not_lt.mpr hT]
    rw [h1, h2, List.append_nil]
  simp only [fireDueTimers]
  rw [hdue, hkeep]
  simp only [List.foldl_cons, List.foldl_nil]
  have hb1 : lookupKey c ({ s with timers := pre } : BotState).buffers =
      some ⟨texts, atts, un, fn, some tid⟩ := by
    show lookupKey c s.buffers = _
    rw [hbuf]
    simp [lookupKey]
  unfold flushChat
  rw [hb1]
  simp [hbat]

/-- Claim C1: a burst of fresh, distinct-id events for one conversation,
each arriving less than DEBOUNCE_INTERVAL after the previous one, produces
— once the conversation has been silent for DEBOUNCE_INTERVAL — exactly
one DeliveryBatch, whose texts are all the events' texts in append order
and whose attachment handles are the concatenation (hence exactly the
union) of the events' saved handles. -/
theorem c1_debounce_single_batch (env : EmailEnv) (c : Int) (e0 : Nat × TgUpdate)
    (rest : List (Nat × TgUpdate)) (T : Nat)
    (hchat : ∀ e ∈ (e0 :: rest), e.2.chatId = c)
    (huid : uidsOk [] (e0 :: rest) = true)
    (htime : timeOk e0.1 rest = true)
    (hT : lastTimeAux e0.1 rest + DEBOUNCE_INTERVAL ≤ T) :
    (runComplete env (e0 :: rest) T).batches.map (fun b => (b.chatId, b.texts, b.attachments)) =
      [(c, (e0 :: rest).map (fun e => extractText e.2.message),
        ((e0 :: rest).map (fun e => saveAttachments e.2.message)).flatten)] ∧
    ∀ b ∈ (runComplete env (e0 :: rest) T).batches, ∀ x : String,
      x ∈ b.attachments ↔ ∃ e ∈ (e0 :: rest), x ∈ saveAttachments e.2.message := by
  rw [uidsOk] at huid
  simp only [Bool.and_eq_true, Bool.not_eq_true', decide_eq_false_iff_not,
    List.nil_append] at huid
  obtain ⟨-, hu2⟩ := huid
  have hinv0 := c1Inv_init env e0.1 e0.2 c (hchat e0 (List.mem_cons_self _ _))
  have hsched : schedule (e0 :: rest) T =
      ([Step.fireDue e0.1, Step.msg e0.1 e0.2] ++
        (rest.map (fun e => [Step.fireDue e.1, Step.msg e.1 e.2])).flatten) ++
      [Step.fireDue T] := rfl
  have hfirst : runSteps env initState [Step.fireDue e0.1, Step.msg e0.1 e0.2] =
      handleMessage env initState e0.1 e0.2 := by
    simp only [runSteps, execStep]
    rw [fireDueTimers_initState]
  have hrun := c1_run env c rest e0.1 [extractText e0.2.message]
    (saveAttachments e0.2.message) [e0.2.updateId] _ hinv0
    (fun x hx => hchat x (List.mem_cons_of_mem _ hx)) htime hu2
  have hfin := c1Inv_final env hrun hT
  have hmain : (runComplete env (e0 :: rest) T).batches.map
      (fun b => (b.chatId, b.texts, b.attachments)) =
      [(c, (e0 :: rest).map (fun e => extractText e.2.message),
        ((e0 :: rest).map (fun e => saveAttachments e.2.message)).flatten)] := by
    rw [runComplete, hsched, runSteps_append, runSteps_append, hfirst]
    show (fireDueTimers env _ T).batches.map _ = _
    simpa using hfin
  refine ⟨hmain, ?_⟩
  intro b hb x
  have hfb := List.mem_map_of_mem (fun b => (b.chatId, b.texts, b.attachments)) hb
  rw [hmain, List.mem_singleton] at hfb
  have hatts : b.attachments =
      ((e0 :: rest).map (fun e => saveAttachments e.2.message)).flatten := by
    have := congrArg (fun q : Int × List String × List String => q.2.2) hfb
    simpa using this
  rw [hatts]
  exact mem_flatten_map _ _ x

/-- First event of the C1 witness burst (text only). -/
def uW1 : TgUpdate := ⟨11, 5, ⟨some "alice", some "Alice"⟩, ⟨some "a", none, [], none, none, none⟩⟩

/-- Second event of the C1 witness burst (text plus one photo). -/
def uW2 : TgUpdate :=
  ⟨12, 5, ⟨some "alice", some "Alice"⟩, ⟨some "b", none, [⟨"p9", true⟩], none, none, none⟩⟩

/-- Witness for C1: events at times 0 and 10 for conversation 5 and a run
to time 70 yield exactly one batch with texts `a`, `b` in order and the
photo's handle. -/
theorem c1_witness :
    (∀ e ∈ [((0 : Nat), uW1), ((10 : Nat), uW2)], e.2.chatId = 5) ∧
    uidsOk [] [((0 : Nat), uW1), ((10 : Nat), uW2)] = true ∧
    timeOk 0 [((10 : Nat), uW2)] = true ∧
    lastTimeAux 0 [((10 : Nat), uW2)] + DEBOUNCE_INTERVAL ≤ 70 ∧
    (runComplete envOk [((0 : Nat), uW1), ((10 : Nat), uW2)] 70).batches.map
        (fun b => (b.chatId, b.texts, b.attachments)) =
      [(5, [((0 : Nat), uW1), ((10 : Nat), uW2)].map (fun e => extractText e.2.message),
        ([((0 : Nat), uW1), ((10 : Nat), uW2)].map
          (fun e => saveAttachments e.2.message)).flatten)] := by
  have h1 : ∀ e ∈ [((0 : Nat), uW1), ((10 : Nat), uW2)], e.2.chatId = 5 := by decide
  have h2 : uidsOk [] [((0 : Nat), uW1), ((10 : Nat), uW2)] = true := by decide
  have h3 : timeOk 0 [((10 : Nat), uW2)] = true := by decide
  have h4 : lastTimeAux 0 [((10 : Nat), uW2)] + DEBOUNCE_INTERVAL ≤ 70 := by decide
  exact ⟨h1, h2, h3, h4,
    (c1_debounce_single_batch envOk 5 (0, uW1) [((10 : Nat), uW2)] 70 h1 h2 h3 h4).1⟩

end Telebot
